import Mathlib

/-!
Verification of the OneBox build-time provisioning script
(src/src/components/home/body.tsx, script half of the file).

The script downloads platform-specific sing-box release archives, a
Windows sysproxy helper and rule-database assets, with a retrying
fetcher (downloadFile), an archive extractor (extractFile), a per-target
installer (embeddingExternalBinaries) and a top-level Promise.all
orchestration guarded by a version skip-list.

We shallowly embed the script: the filesystem is a map from paths to
optional file contents plus a set of directories; the network transport
is an oracle mapping the attempt number to an outcome; timing is
modelled by the delays the code inserts explicitly plus per-attempt
transport durations where a claim needs wall-clock reasoning.
-/

namespace OneBox

/-- A file system: each path holds at most one file content. -/
def FS : Type := String → Option String

/-- Writing a file at a path (models createWriteStream + full pipeline). -/
def FS.write (fs : FS) (p c : String) : FS :=
  fun q => if q = p then some c else fs q

/-- Removing the file at a path (models existsSync check + unlinkSync:
unconditional erasure has the same resulting state). -/
def FS.erase (fs : FS) (p : String) : FS :=
  fun q => if q = p then none else fs q

/-- The empty file system. -/
def emptyFS : FS := fun _ => none

/-- Directory set of the file system, tracked separately. -/
def Dirs : Type := String → Bool

/-- mkdirSync: the directory now exists. -/
def Dirs.add (ds : Dirs) (p : String) : Dirs :=
  fun q => if q = p then true else ds q

/-- rmSync on a directory: the directory no longer exists. -/
def Dirs.remove (ds : Dirs) (p : String) : Dirs :=
  fun q => if q = p then false else ds q

/-- No directories. -/
def emptyDirs : Dirs := fun _ => false

/-- Underlying causes an attempt can fail with, mirroring the throw sites
of downloadFile: non-ok HTTP status, missing response body, a failure of
the streaming pipeline, and the 60 s AbortController timeout. -/
inductive FetchFail : Type
  | httpStatus (code : Nat)
  | emptyBody
  | streamFail
  | timeout
deriving DecidableEq, Repr

/-- What the transport does on one attempt: succeed with a body, fail
before anything is written to the destination (timeout, bad status,
empty body), or fail midway through streaming after writing a truncated
prefix. -/
inductive AttemptOutcome : Type
  | success (body : String)
  | failBeforeWrite (e : FetchFail)
  | failDuringWrite (written : String) (e : FetchFail)
deriving DecidableEq, Repr

/-- Whether the attempt outcome is a failure. -/
def AttemptOutcome.isFail : AttemptOutcome → Bool
  | .success _ => false
  | .failBeforeWrite _ => true
  | .failDuringWrite _ _ => true

/-- The underlying error of a failed attempt, none on success. -/
def AttemptOutcome.errOf : AttemptOutcome → Option FetchFail
  | .success _ => none
  | .failBeforeWrite e => some e
  | .failDuringWrite _ e => some e

/-- The terminal error thrown by downloadFile after the retry loop:
the message carries the URL, the configured attempt count and the last
underlying error (null when no attempt ran). -/
structure FetchError : Type where
  url : String
  attempts : Int
  lastError : Option FetchFail
deriving DecidableEq, Repr

/-- Observable result of one downloadFile call: its outcome, the final
file system, the file-system snapshot taken immediately after each
failed attempt finished its catch-block cleanup, the backoff delays
inserted (attempt number paired with milliseconds waited), and how many
attempts ran. -/
structure DLReturn : Type where
  result : Except FetchError Unit
  fs : FS
  postFailStates : List FS
  delays : List (Int × Int)
  attemptsMade : Nat

/-- The retry loop of downloadFile. The fuel argument counts the
remaining iterations of the JS loop `for (attempt = 1; attempt <=
maxRetries; attempt++)`; callers pass fuel = (maxRetries - attempt +
1).toNat so that fuel = 0 exactly when the loop guard fails and the
final throw is reached. On a failed attempt the catch block records the
error, erases any file at dest, and when attempt < maxRetries sleeps
attempt * 1000 ms before the next iteration. -/
def downloadLoop (oracle : Int → AttemptOutcome) (url dest : String)
    (maxRetries : Int) : Nat → Int → Option FetchFail → FS → DLReturn
  | 0, _, lastError, fs =>
      ⟨.error ⟨url, maxRetries, lastError⟩, fs, [], [], 0⟩
  | fuel + 1, attempt, _, fs =>
      match oracle attempt with
      | .success body =>
          ⟨.ok (), fs.write dest body, [], [], 1⟩
      | .failBeforeWrite e =>
          let fs1 := fs.erase dest
          let ds := if attempt < maxRetries then [(attempt, attempt * 1000)] else []
          let rest := downloadLoop oracle url dest maxRetries fuel (attempt + 1) (some e) fs1
          ⟨rest.result, rest.fs, fs1 :: rest.postFailStates, ds ++ rest.delays,
            rest.attemptsMade + 1⟩
      | .failDuringWrite written e =>
          let fs1 := (fs.write dest written).erase dest
          let ds := if attempt < maxRetries then [(attempt, attempt * 1000)] else []
          let rest := downloadLoop oracle url dest maxRetries fuel (attempt + 1) (some e) fs1
          ⟨rest.result, rest.fs, fs1 :: rest.postFailStates, ds ++ rest.delays,
            rest.attemptsMade + 1⟩

/-- downloadFile(url, dest, maxRetries = 3): run the retry loop starting
at attempt 1 with lastError = null. -/
def downloadFile (oracle : Int → AttemptOutcome) (url dest : String)
    (maxRetries : Int) (fs : FS) : DLReturn :=
  downloadLoop oracle url dest maxRetries maxRetries.toNat 1 none fs

/-- The embedded binary base name. -/
def BINARY_NAME : String := "sing-box"

/-- Fixed release base URL of the sing-box archives. -/
def GITHUB_RELEASE_URL : String := "https://github.com/caocaocc/sing-box/releases/download/"

/-- Fixed sysproxy helper URL (Windows x64 only). -/
def SYSPROXY_URL : String := "https://github.com/clash-verge-rev/sysproxy/releases/download/x64/sysproxy.exe"

/-- Versions for which the whole run is aborted before any task. -/
def SkipVersionList : List String := ["v1.12.5"]

/-- Supported (platform, (architecture, rust target triple)) matrix. -/
def RUST_TARGET_TRIPLES : List (String × List (String × String)) :=
  [("darwin", [("arm64", "aarch64-apple-darwin"), ("amd64", "x86_64-apple-darwin")]),
   ("linux", [("amd64", "x86_64-unknown-linux-gnu"), ("arm64", "aarch64-unknown-linux-gnu")]),
   ("windows", [("amd64", "x86_64-pc-windows-msvc")])]

/-- Archive extension chosen per platform. -/
def fileExtensionOf (platform : String) : String :=
  if platform = "windows" then "zip" else "tar.gz"

/-- The download URL as the code computes it: base, then the full
version as the release-tag path segment, then the archive file name in
which the version appears with its leading character stripped
(substring(1) is String.drop 1). -/
def mkDownloadUrl (version platform arch : String) : String :=
  GITHUB_RELEASE_URL ++ version ++ "/" ++ BINARY_NAME ++ "-" ++ version.drop 1 ++
    "-" ++ platform ++ "-" ++ arch ++ "." ++ fileExtensionOf platform

/-- The download URL as the spec sentence for claim C8 reads: every
occurrence of the version embedded in the URL has its leading marker
character stripped, so the tag segment would also be the stripped
version. Defined only to compare against mkDownloadUrl. -/
def mkDownloadUrlSpecRead (version platform arch : String) : String :=
  GITHUB_RELEASE_URL ++ version.drop 1 ++ "/" ++ BINARY_NAME ++ "-" ++ version.drop 1 ++
    "-" ++ platform ++ "-" ++ arch ++ "." ++ fileExtensionOf platform

/-- The unique temporary workspace of one installer task; tmpToken
models the Date.now() timestamp and random suffix of the JS code, and
the __dirname prefix is kept as a literal path segment. -/
def tmpDirOf (platform arch tmpToken : String) : String :=
  "__dirname/tmp/" ++ platform ++ "-" ++ arch ++ "-" ++ tmpToken

/-- Path of the executable expected inside the extracted archive. -/
def extractedFilePathOf (tmpDir version platform arch extension : String) : String :=
  tmpDir ++ "/" ++ BINARY_NAME ++ "-" ++ version.drop 1 ++ "-" ++ platform ++ "-" ++
    arch ++ "/" ++ BINARY_NAME ++ extension

/-- Final destination of the installed executable. -/
def targetPathOf (targetTriple extension : String) : String :=
  "src-tauri/binaries/" ++ BINARY_NAME ++ "-" ++ targetTriple ++ extension

/-- Final destination of the sysproxy helper (windows amd64 triple). -/
def sysproxyTargetPath : String := "src-tauri/binaries/sysproxy-x86_64-pc-windows-msvc.exe"

/-- Errors an installer task can end with, one per throwing step. -/
inductive InstallError : Type
  | fetchFailed (e : FetchError)
  | extractFailed
  | moveFailed
deriving DecidableEq, Repr

/-- Files plus directories, the state an installer task acts on. -/
structure InstallState : Type where
  fs : FS
  dirs : Dirs

/-- Observable result of one embeddingExternalBinaries call. -/
structure InstallReturn : Type where
  result : Except InstallError Unit
  state : InstallState
  urlFetched : String

/-- Whether the installer task succeeded. -/
def InstallReturn.succeeded (r : InstallReturn) : Bool :=
  match r.result with
  | .ok _ => true
  | .error _ => false

/-- embeddingExternalBinaries(platform, arch, extension, targetTriple):
compute names and the download URL, create the temporary workspace,
download the archive, extract it (entries = none models a throwing
extraction, some es the files it writes under the workspace), ensure
the target directory exists, move the extracted executable to the
target path and only then remove the workspace; any thrown error is
logged and re-raised without reaching the removal. -/
def embeddingExternalBinaries (platform arch extension targetTriple version tmpToken : String)
    (oracle : Int → AttemptOutcome) (entries : Option (List (String × String)))
    (st : InstallState) : InstallReturn :=
  let fileExtension := fileExtensionOf platform
  let fileName := BINARY_NAME ++ "-" ++ platform ++ "-" ++ arch ++ "." ++ fileExtension
  let downloadUrl := mkDownloadUrl version platform arch
  let tmpDir := tmpDirOf platform arch tmpToken
  let downloadPath := tmpDir ++ "/" ++ fileName
  let dirs1 := st.dirs.add tmpDir
  let dl := downloadFile oracle downloadUrl downloadPath 3 st.fs
  match dl.result with
  | .error e => ⟨.error (.fetchFailed e), ⟨dl.fs, dirs1⟩, downloadUrl⟩
  | .ok _ =>
    match entries with
    | none => ⟨.error .extractFailed, ⟨dl.fs, dirs1⟩, downloadUrl⟩
    | some es =>
      let fs2 := es.foldl (fun a pc => FS.write a (tmpDir ++ "/" ++ pc.1) pc.2) dl.fs
      let extractedFilePath := extractedFilePathOf tmpDir version platform arch extension
      let targetPath := targetPathOf targetTriple extension
      let dirs2 := dirs1.add "src-tauri/binaries"
      match fs2 extractedFilePath with
      | none => ⟨.error .moveFailed, ⟨fs2, dirs2⟩, downloadUrl⟩
      | some c =>
        let fs3 := (fs2.write targetPath c).erase extractedFilePath
        let fs4 : FS := fun p => if String.isPrefixOf tmpDir p then none else fs3 p
        let dirs3 := dirs2.remove tmpDir
        ⟨.ok (), ⟨fs4, dirs3⟩, downloadUrl⟩

/-- The static database asset list of downloadDatabaseFiles. -/
def dbFiles : List (String × String) :=
  [("mixed-cache-rule-v1.db",
    "https://github.com/caocaocc/conf-template/raw/refs/heads/stable/database/1.12/zh-cn/mixed-cache-rule-v1.db"),
   ("tun-cache-rule-v1.db",
    "https://github.com/caocaocc/conf-template/raw/refs/heads/stable/database/1.12/zh-cn/tun-cache-rule-v1.db")]

/-- The (name, url) tasks downloadEmbeddingExternalBinaries pushes, in
loop order: one installer task per matrix entry plus the sysproxy task
right after the windows amd64 entry. -/
def binaryTasks (version : String) : List (String × String) :=
  RUST_TARGET_TRIPLES.flatMap fun pa =>
    pa.2.flatMap fun ar =>
      (BINARY_NAME ++ "-" ++ pa.1 ++ "-" ++ ar.1, mkDownloadUrl version pa.1 ar.1) ::
        (if pa.1 = "windows" ∧ ar.1 = "amd64" then [("sysproxy", SYSPROXY_URL)] else [])

/-- The asset tasks of downloadDatabaseFiles. -/
def dbTasks : List (String × String) :=
  dbFiles.map fun f => ("db-" ++ f.1, f.2)

/-- Every task the top-level Promise.all schedules (the cronet task is
commented out in the source and hence absent). -/
def allTasks (version : String) : List (String × String) :=
  binaryTasks version ++ dbTasks

/-- Observable orchestration events. -/
inductive OEvent : Type
  | skipCheck (matched : Bool)
  | taskCreated (name : String)
  | networkRequest (url : String)
  | exited (code : Int)
deriving DecidableEq, Repr

/-- The top level of the script: test the skip-list once; on a match
log and throw, which terminates the node process with status 1 before
any task exists; otherwise create all tasks (each immediately issuing
its network request) and exit 0 exactly when every task succeeded. The
event list records what happened in order. -/
def orchestrate (version : String) (taskSucceeds : String → Bool) : List OEvent × Int :=
  if version ∈ SkipVersionList then
    ([.skipCheck true, .exited 1], 1)
  else
    let tasks := allTasks version
    let ok := tasks.all fun tk => taskSucceeds tk.1
    let code : Int := if ok then 0 else 1
    ([.skipCheck false] ++ (tasks.flatMap fun tk => [.taskCreated tk.1, .networkRequest tk.2]) ++
      [.exited code], code)

/-- A task as the top-level Promise.all sees it: the time at which its
promise settles and whether it fulfilled. -/
structure OTask : Type where
  settle : Int
  ok : Bool
deriving DecidableEq, Repr

/-- The time of the earliest rejection among the tasks, none when all
fulfil: Promise.all rejects at the first input rejection. -/
def earliestFailTime : List OTask → Option Int
  | [] => none
  | t :: ts =>
    match earliestFailTime ts with
    | none => if t.ok then none else some t.settle
    | some m => if t.ok then some m else some (min t.settle m)

/-- Promise.all(...).then(exit 0).catch(exit 1): the pair of the time
the process exits and the exit code. On any rejection the catch runs at
the earliest rejection time; otherwise the then-handler runs once the
last task fulfils. -/
def promiseAllExit (ts : List OTask) : Int × Int :=
  match earliestFailTime ts with
  | some tm => (tm, 1)
  | none => ((ts.map OTask.settle).foldr max 0, 0)

/-- Total milliseconds downloadFile spent in backoff sleeps. -/
def delaysTotal (r : DLReturn) : Int :=
  (r.delays.map Prod.snd).foldr (· + ·) 0

/-- Wall-clock settle time of one downloadFile task, charging each
transport attempt a uniform duration attemptMs. -/
def settleTimeOf (r : DLReturn) (attemptMs : Int) : Int :=
  delaysTotal r + attemptMs * r.attemptsMade

/-- Whether the downloadFile call returned normally. -/
def resultOk (r : DLReturn) : Bool :=
  match r.result with
  | .ok _ => true
  | .error _ => false

/-- The promise a downloadFile task presents to Promise.all. -/
def taskRunOf (r : DLReturn) (attemptMs : Int) : OTask :=
  ⟨settleTimeOf r attemptMs, resultOk r⟩

/-- A transport whose every attempt fails with HTTP 404 before writing. -/
def alwaysFailOracle : Int → AttemptOutcome := fun _ => .failBeforeWrite (.httpStatus 404)

/-- A transport that times out twice, then succeeds. -/
def flakyOracle : Int → AttemptOutcome :=
  fun n => if n < 3 then .failBeforeWrite .timeout else .success "BODY"

/-- A transport whose first attempt already succeeds. -/
def assetOkOracle : Int → AttemptOutcome := fun _ => .success "asset-bytes"

/-- Destination of the first database asset. -/
def assetDest : String := "src-tauri/resources/mixed-cache-rule-v1.db"

/-- A file system holding the helper file installed by a prior run. -/
def preInstalledFS : FS :=
  fun p => if p = sysproxyTargetPath then some "previously-installed" else none

/-- End-to-end failure scenario of the spec: the single binary target
whose archive fetch always fails (each attempt failing instantly, so
the task rejects after the 1 s + 2 s backoff sleeps). -/
def scenarioBinaryRun : DLReturn :=
  downloadFile alwaysFailOracle (mkDownloadUrl "v1.12.6" "linux" "amd64")
    (tmpDirOf "linux" "amd64" "s0" ++ "/" ++ BINARY_NAME ++ "-linux-amd64.tar.gz") 3 emptyFS

/-- The asset task of the failure scenario: the transport succeeds but
the transfer takes 10 s of wall clock. -/
def scenarioAssetRun : DLReturn :=
  downloadFile assetOkOracle
    "https://github.com/caocaocc/conf-template/raw/refs/heads/stable/database/1.12/zh-cn/mixed-cache-rule-v1.db"
    assetDest 3 emptyFS

/-- The two promises the top-level Promise.all of the scenario awaits:
the archive task settles after its backoff sleeps with zero-cost
attempts, the asset task settles after its one 10 s attempt. -/
def scenarioTasks : List OTask :=
  [taskRunOf scenarioBinaryRun 0, taskRunOf scenarioAssetRun 10000]

/-- What the asset destination holds at the moment process.exit runs:
the asset task's writes are on disk only if the task settled by then,
otherwise the path still has its initial (absent) content. -/
def scenarioAssetFileAtExit : Option String :=
  if settleTimeOf scenarioAssetRun 10000 ≤ (promiseAllExit scenarioTasks).1 then
    scenarioAssetRun.fs assetDest
  else emptyFS assetDest

/-! ## Helper lemmas about the retry loop -/

/-- After any failed attempt has run its catch-block cleanup, the
destination path holds no file, whatever the attempt number, the
initial file system and the failure mode. -/
theorem downloadLoop_postFail_none (oracle : Int → AttemptOutcome) (url dest : String)
    (maxRetries : Int) :
    ∀ (fuel : Nat) (attempt : Int) (le : Option FetchFail) (fs : FS) (i : Nat),
      (((downloadLoop oracle url dest maxRetries fuel attempt le fs).postFailStates)[i]?).getD
        emptyFS dest = none
  | 0, attempt, le, fs, i => by
      simp [downloadLoop, emptyFS]
  | fuel + 1, attempt, le, fs, i => by
      cases h : oracle attempt with
      | success body => simp [downloadLoop, h, emptyFS]
      | failBeforeWrite e =>
          cases i with
          | zero => simp [downloadLoop, h, FS.erase]
          | succ j =>
              have ih := downloadLoop_postFail_none oracle url dest maxRetries fuel
                (attempt + 1) (some e) ((fs.erase dest)) j
              simpa [downloadLoop, h] using ih
      | failDuringWrite w e =>
          cases i with
          | zero => simp [downloadLoop, h, FS.erase]
          | succ j =>
              have ih := downloadLoop_postFail_none oracle url dest maxRetries fuel
                (attempt + 1) (some e) (((fs.write dest w)).erase dest) j
              simpa [downloadLoop, h] using ih

/-- Every backoff delay the loop inserts pairs a failed attempt number
strictly below maxRetries with that number times 1000 ms. -/
theorem downloadLoop_delays_spec (oracle : Int → AttemptOutcome) (url dest : String)
    (maxRetries : Int) :
    ∀ (fuel : Nat) (attempt : Int) (le : Option FetchFail) (fs : FS)
      (p : Int × Int),
      p ∈ (downloadLoop oracle url dest maxRetries fuel attempt le fs).delays →
      p.2 = p.1 * 1000 ∧ p.1 < maxRetries
  | 0, attempt, le, fs, p => by
      simp [downloadLoop]
  | fuel + 1, attempt, le, fs, p => by
      intro hp
      cases h : oracle attempt with
      | success body => simp [downloadLoop, h] at hp
      | failBeforeWrite e =>
          rw [downloadLoop] at hp
          simp [h, List.mem_append] at hp
          rcases hp with hp | hp
          · by_cases hc : attempt < maxRetries
            · simp [hc] at hp
              subst hp
              exact ⟨rfl, hc⟩
            · simp [hc] at hp
          · exact downloadLoop_delays_spec oracle url dest maxRetries fuel (attempt + 1)
              (some e) ((fs.erase dest)) p hp
      | failDuringWrite w e =>
          rw [downloadLoop] at hp
          simp [h, List.mem_append] at hp
          rcases hp with hp | hp
          · by_cases hc : attempt < maxRetries
            · simp [hc] at hp
              subst hp
              exact ⟨rfl, hc⟩
            · simp [hc] at hp
          · exact downloadLoop_delays_spec oracle url dest maxRetries fuel (attempt + 1)
              (some e) (((fs.write dest w)).erase dest) p hp

/-- When every remaining attempt fails, the loop ends in the terminal
throw carrying the last underlying error, and the destination file has
been cleaned up. -/
theorem downloadLoop_allFail (oracle : Int → AttemptOutcome) (url dest : String)
    (maxRetries : Int) :
    ∀ (fuel : Nat) (attempt : Int) (le : Option FetchFail) (fs : FS),
      fuel = (maxRetries - attempt + 1).toNat →
      1 ≤ attempt → attempt ≤ maxRetries →
      (∀ n : Int, attempt ≤ n → n ≤ maxRetries → (oracle n).isFail = true) →
      (downloadLoop oracle url dest maxRetries fuel attempt le fs).result =
        .error ⟨url, maxRetries, (oracle maxRetries).errOf⟩ ∧
      (downloadLoop oracle url dest maxRetries fuel attempt le fs).fs dest = none
  | 0, attempt, le, fs => by
      intro hfuel _ h2 _
      omega
  | fuel + 1, attempt, le, fs => by
      intro hfuel h1 h2 hall
      have hfa : (oracle attempt).isFail = true := hall attempt le_rfl h2
      cases h : oracle attempt with
      | success body =>
          rw [h] at hfa
          simp [AttemptOutcome.isFail] at hfa
      | failBeforeWrite e =>
          by_cases hlast : attempt = maxRetries
          · have hf0 : fuel = 0 := by omega
            subst hf0
            rw [downloadLoop]
            simp only [h, downloadLoop]
            rw [hlast] at h
            simp [h, AttemptOutcome.errOf, FS.erase]
          · have ih := downloadLoop_allFail oracle url dest maxRetries fuel (attempt + 1)
              (some e) ((fs.erase dest)) (by omega) (by omega) (by omega)
              (fun n hn1 hn2 => hall n (by omega) hn2)
            rw [downloadLoop]
            simpa [h] using ih
      | failDuringWrite w e =>
          by_cases hlast : attempt = maxRetries
          · have hf0 : fuel = 0 := by omega
            subst hf0
            rw [downloadLoop]
            simp only [h, downloadLoop]
            rw [hlast] at h
            simp [h, AttemptOutcome.errOf, FS.erase]
          · have ih := downloadLoop_allFail oracle url dest maxRetries fuel (attempt + 1)
              (some e) (((fs.write dest w)).erase dest) (by omega) (by omega) (by omega)
              (fun n hn1 hn2 => hall n (by omega) hn2)
            rw [downloadLoop]
            simpa [h] using ih

/-- When the attempts before succAt fail and attempt succAt succeeds
with a body, the loop returns normally and the destination holds that
body. -/
theorem downloadLoop_eventualSuccess (oracle : Int → AttemptOutcome) (url dest : String)
    (maxRetries : Int) (succAt : Int) (body : String) :
    ∀ (fuel : Nat) (attempt : Int) (le : Option FetchFail) (fs : FS),
      fuel = (maxRetries - attempt + 1).toNat →
      1 ≤ attempt → attempt ≤ succAt → succAt ≤ maxRetries →
      (∀ n : Int, attempt ≤ n → n < succAt → (oracle n).isFail = true) →
      oracle succAt = .success body →
      (downloadLoop oracle url dest maxRetries fuel attempt le fs).result = .ok () ∧
      (downloadLoop oracle url dest maxRetries fuel attempt le fs).fs dest = some body
  | 0, attempt, le, fs => by
      intro hfuel _ h2 h3 _ _
      omega
  | fuel + 1, attempt, le, fs => by
      intro hfuel h1 h2 h3 hfl hsc
      by_cases hnow : attempt = succAt
      · subst hnow
        rw [downloadLoop]
        simp [hsc, FS.write]
      · have hlt : attempt < succAt := lt_of_le_of_ne h2 hnow
        have hfa : (oracle attempt).isFail = true := hfl attempt le_rfl hlt
        cases h : oracle attempt with
        | success b =>
            rw [h] at hfa
            simp [AttemptOutcome.isFail] at hfa
        | failBeforeWrite e =>
            have ih := downloadLoop_eventualSuccess oracle url dest maxRetries succAt body
              fuel (attempt + 1) (some e) ((fs.erase dest)) (by omega) (by omega)
              (by omega) h3 (fun n hn1 hn2 => hfl n (by omega) hn2) hsc
            rw [downloadLoop]
            simpa [h] using ih
        | failDuringWrite w e =>
            have ih := downloadLoop_eventualSuccess oracle url dest maxRetries succAt body
              fuel (attempt + 1) (some e) (((fs.write dest w)).erase dest) (by omega)
              (by omega) (by omega) h3 (fun n hn1 hn2 => hfl n (by omega) hn2) hsc
            rw [downloadLoop]
            simpa [h] using ih

/-- If Promise.all sees no rejection, every input fulfilled. -/
theorem earliestFailTime_none :
    ∀ ts : List OTask, earliestFailTime ts = none → ∀ t ∈ ts, t.ok = true
  | [], _ => by simp
  | t :: ts, h => by
      rw [earliestFailTime] at h
      cases hrec : earliestFailTime ts with
      | none =>
          rw [hrec] at h
          by_cases hok : t.ok
          · intro u hu
            rcases List.mem_cons.mp hu with h' | h'
            · subst h'; exact hok
            · exact earliestFailTime_none ts hrec u h'
          · simp [hok] at h
      | some m =>
          rw [hrec] at h
          by_cases hok : t.ok <;> simp [hok] at h

/-- The earliest rejection time is attained by a rejected task and
bounds every rejected task's settle time from below. -/
theorem earliestFailTime_spec :
    ∀ (ts : List OTask) (m : Int), earliestFailTime ts = some m →
      (∃ t ∈ ts, t.ok = false ∧ t.settle = m) ∧
      (∀ t ∈ ts, t.ok = false → m ≤ t.settle)
  | [], m => by simp [earliestFailTime]
  | t :: ts, m => by
      intro hm
      rw [earliestFailTime] at hm
      cases hrec : earliestFailTime ts with
      | none =>
          rw [hrec] at hm
          by_cases hok : t.ok
          · simp [hok] at hm
          · simp [hok] at hm
            subst hm
            refine ⟨⟨t, by simp, by simpa using hok, rfl⟩, ?_⟩
            intro u hu huf
            rcases List.mem_cons.mp hu with h' | h'
            · subst h'; exact le_rfl
            · have := earliestFailTime_none ts hrec u h'
              rw [this] at huf
              cases huf
      | some m0 =>
          rw [hrec] at hm
          have ih := earliestFailTime_spec ts m0 hrec
          by_cases hok : t.ok
          · simp [hok] at hm
            subst hm
            obtain ⟨⟨u, hu, huf, hus⟩, hbound⟩ := ih
            refine ⟨⟨u, List.mem_cons_of_mem t hu, huf, hus⟩, ?_⟩
            intro v hv hvf
            rcases List.mem_cons.mp hv with h' | h'
            · subst h'; rw [hok] at hvf; cases hvf
            · exact hbound v h' hvf
          · simp [hok] at hm
            subst hm
            obtain ⟨⟨u, hu, huf, hus⟩, hbound⟩ := ih
            constructor
            · by_cases hcmp : t.settle ≤ m0
              · exact ⟨t, by simp, by simpa using hok, by omega⟩
              · exact ⟨u, List.mem_cons_of_mem t hu, huf, by omega⟩
            · intro v hv hvf
              rcases List.mem_cons.mp hv with h' | h'
              · subst h'; exact min_le_left _ _
              · exact le_trans (min_le_right _ _) (hbound v h' hvf)

/-! ## Claims about the retrying fetcher -/

/-- C3: for every fetch invocation and every failed attempt within it,
immediately after that attempt fails (that is, once its catch block has
run) no partial file remains at the destination path. The code in fact
always leaves the path absent there, which gives the claimed
disjunction (absent, or a file from a prior successful run) by its
first branch. The i-th snapshot is indexed with a total lookup whose
out-of-range default also holds nothing at the path. -/
theorem downloadFile_no_partial_after_failed_attempt
    (oracle : Int → AttemptOutcome) (url dest : String) (maxRetries : Int)
    (fs : FS) (i : Nat) :
    (((downloadFile oracle url dest maxRetries fs).postFailStates)[i]?).getD emptyFS dest
      = none :=
  downloadLoop_postFail_none oracle url dest maxRetries maxRetries.toNat 1 none fs i

/-- C4: when all maxRetries attempts fail, downloadFile raises the
terminal error carrying the URL, the configured attempt count and the
last underlying error, and afterwards no file exists at the
destination path. -/
theorem downloadFile_exhausted_raises_and_removes
    (oracle : Int → AttemptOutcome) (url dest : String) (maxRetries : Int) (fs : FS)
    (h1 : 1 ≤ maxRetries)
    (hall : ∀ n : Int, 1 ≤ n → n ≤ maxRetries → (oracle n).isFail = true) :
    ∃ e : FetchFail, (oracle maxRetries).errOf = some e ∧
      (downloadFile oracle url dest maxRetries fs).result =
        .error ⟨url, maxRetries, some e⟩ ∧
      (downloadFile oracle url dest maxRetries fs).fs dest = none := by
  have key := downloadLoop_allFail oracle url dest maxRetries maxRetries.toNat 1 none fs
    (by omega) le_rfl h1 hall
  have hfa := hall maxRetries h1 le_rfl
  unfold downloadFile
  cases h : oracle maxRetries with
  | success b =>
      rw [h] at hfa
      simp [AttemptOutcome.isFail] at hfa
  | failBeforeWrite e =>
      refine ⟨e, rfl, ?_, key.2⟩
      have h1' := key.1
      rw [h] at h1'
      simpa [AttemptOutcome.errOf] using h1'
  | failDuringWrite w e =>
      refine ⟨e, rfl, ?_, key.2⟩
      have h1' := key.1
      rw [h] at h1'
      simpa [AttemptOutcome.errOf] using h1'

/-- Witness for C4: with a transport failing all three attempts with
HTTP 404, the call returns the terminal error for attempt 3 and the
destination is absent. -/
theorem downloadFile_exhausted_raises_and_removes_witness :
    ∃ e : FetchFail, (alwaysFailOracle 3).errOf = some e ∧
      (downloadFile alwaysFailOracle (mkDownloadUrl "v1.12.6" "windows" "amd64")
        "arch.zip" 3 emptyFS).result =
        .error ⟨mkDownloadUrl "v1.12.6" "windows" "amd64", 3, some e⟩ ∧
      (downloadFile alwaysFailOracle (mkDownloadUrl "v1.12.6" "windows" "amd64")
        "arch.zip" 3 emptyFS).fs "arch.zip" = none :=
  downloadFile_exhausted_raises_and_removes alwaysFailOracle
    (mkDownloadUrl "v1.12.6" "windows" "amd64") "arch.zip" 3 emptyFS (by decide)
    (fun n _ _ => rfl)

/-- C5: when the transport fails the first k < maxRetries attempts and
attempt k + 1 succeeds, downloadFile returns normally and the
destination holds the body of the final, successful attempt. -/
theorem downloadFile_eventual_success
    (oracle : Int → AttemptOutcome) (url dest : String) (maxRetries : Int) (fs : FS)
    (k : Int) (body : String)
    (hk0 : 0 ≤ k) (hk : k + 1 ≤ maxRetries)
    (hfail : ∀ n : Int, 1 ≤ n → n ≤ k → (oracle n).isFail = true)
    (hsucc : oracle (k + 1) = .success body) :
    (downloadFile oracle url dest maxRetries fs).result = .ok () ∧
    (downloadFile oracle url dest maxRetries fs).fs dest = some body := by
  have key := downloadLoop_eventualSuccess oracle url dest maxRetries (k + 1) body
    maxRetries.toNat 1 none fs (by omega) le_rfl (by omega) hk
    (fun n hn1 hn2 => hfail n hn1 (by omega)) hsucc
  exact key

/-- Witness for C5: a transport timing out twice then succeeding makes
the fetch succeed with the final body on disk. -/
theorem downloadFile_eventual_success_witness :
    (downloadFile flakyOracle "u2" "d2" 3 emptyFS).result = .ok () ∧
    (downloadFile flakyOracle "u2" "d2" 3 emptyFS).fs "d2" = some "BODY" :=
  downloadFile_eventual_success flakyOracle "u2" "d2" 3 emptyFS 2 "BODY" (by decide)
    (by decide)
    (fun n h1 h2 => by
      have hlt : n < 3 := by omega
      simp [flakyOracle, hlt, AttemptOutcome.isFail])
    (by decide)

/-- C7: the delay downloadFile inserts between failed attempt n and
attempt n + 1 is exactly n * 1000 ms, and no delay is inserted after
the final attempt: every recorded delay has attempt number strictly
below maxRetries. -/
theorem downloadFile_backoff_linear (oracle : Int → AttemptOutcome) (url dest : String)
    (maxRetries : Int) (fs : FS) (p : Int × Int)
    (hp : p ∈ (downloadFile oracle url dest maxRetries fs).delays) :
    p.2 = p.1 * 1000 ∧ p.1 < maxRetries :=
  downloadLoop_delays_spec oracle url dest maxRetries maxRetries.toNat 1 none fs p hp

/-- Witness for C7: the run failing all three attempts records the
delay (1, 1000 ms), and the theorem applies to it. -/
theorem downloadFile_backoff_linear_witness :
    ((1 : Int), (1000 : Int)) ∈ (downloadFile alwaysFailOracle "u" "d" 3 emptyFS).delays ∧
    ((1 : Int), (1000 : Int)).2 = ((1 : Int), (1000 : Int)).1 * 1000 ∧
    ((1 : Int), (1000 : Int)).1 < 3 :=
  ⟨by decide,
   downloadFile_backoff_linear alwaysFailOracle "u" "d" 3 emptyFS (1, 1000) (by decide)⟩

/-- C9: any failed attempt deletes whatever file currently exists at
the destination path, even one predating the invocation that the
failing attempt never wrote: with a pre-existing file at the
destination and a first attempt failing before any write, the snapshot
right after that attempt shows the path empty. -/
theorem downloadFile_failed_attempt_deletes_preexisting
    (oracle : Int → AttemptOutcome) (url dest : String) (maxRetries : Int)
    (fs : FS) (c0 : String) (e : FetchFail)
    (hpre : fs dest = some c0) (hmr : 1 ≤ maxRetries)
    (h1 : oracle 1 = .failBeforeWrite e) :
    fs dest ≠ none ∧
    (((downloadFile oracle url dest maxRetries fs).postFailStates)[0]?).getD emptyFS dest
      = none := by
  refine ⟨by rw [hpre]; simp, ?_⟩
  obtain ⟨m, hm⟩ : ∃ m, maxRetries.toNat = m + 1 := ⟨maxRetries.toNat - 1, by omega⟩
  unfold downloadFile
  rw [hm, downloadLoop]
  simp [h1, FS.erase]

/-- Witness for C9: a previously installed sysproxy helper at its final
destination is removed by a failed re-provisioning attempt for the
sysproxy URL. -/
theorem downloadFile_failed_attempt_deletes_preexisting_witness :
    preInstalledFS sysproxyTargetPath ≠ none ∧
    (((downloadFile alwaysFailOracle SYSPROXY_URL sysproxyTargetPath 3
        preInstalledFS).postFailStates)[0]?).getD emptyFS sysproxyTargetPath = none :=
  downloadFile_failed_attempt_deletes_preexisting alwaysFailOracle SYSPROXY_URL
    sysproxyTargetPath 3 preInstalledFS "previously-installed" (.httpStatus 404)
    (by decide) (by decide) (by decide)

/-- C10: with maxRetries ≤ 0 the loop body never runs, so downloadFile
makes no transfer attempt, leaves every path of the file system
untouched, inserts no delay, and raises the terminal error reporting
the configured attempt count and a null last underlying error. -/
theorem downloadFile_nonpositive_retries (oracle : Int → AttemptOutcome)
    (url dest : String) (maxRetries : Int) (fs : FS) (hmr : maxRetries ≤ 0) :
    (downloadFile oracle url dest maxRetries fs).result =
        .error ⟨url, maxRetries, none⟩ ∧
    (downloadFile oracle url dest maxRetries fs).attemptsMade = 0 ∧
    (∀ p, (downloadFile oracle url dest maxRetries fs).fs p = fs p) ∧
    (downloadFile oracle url dest maxRetries fs).delays = [] := by
  have h0 : maxRetries.toNat = 0 := by omega
  unfold downloadFile
  rw [h0, downloadLoop]
  exact ⟨rfl, rfl, fun p => rfl, rfl⟩

/-- Witness for C10: maxRetries = -2 yields the terminal error with a
null last error, zero attempts, the probed path untouched and no
delays. -/
theorem downloadFile_nonpositive_retries_witness :
    (downloadFile alwaysFailOracle "u" "d" (-2) preInstalledFS).result =
        .error ⟨"u", -2, none⟩ ∧
    (downloadFile alwaysFailOracle "u" "d" (-2) preInstalledFS).attemptsMade = 0 ∧
    (downloadFile alwaysFailOracle "u" "d" (-2) preInstalledFS).fs sysproxyTargetPath =
        preInstalledFS sysproxyTargetPath ∧
    (downloadFile alwaysFailOracle "u" "d" (-2) preInstalledFS).delays = [] :=
  ⟨(downloadFile_nonpositive_retries alwaysFailOracle "u" "d" (-2) preInstalledFS
      (by decide)).1,
   (downloadFile_nonpositive_retries alwaysFailOracle "u" "d" (-2) preInstalledFS
      (by decide)).2.1,
   (downloadFile_nonpositive_retries alwaysFailOracle "u" "d" (-2) preInstalledFS
      (by decide)).2.2.1 sysproxyTargetPath,
   (downloadFile_nonpositive_retries alwaysFailOracle "u" "d" (-2) preInstalledFS
      (by decide)).2.2.2⟩

/-! ## Claims about the installer, the orchestrator and Promise.all -/

/-- The URL the installer passes to downloadFile is the one computed by
mkDownloadUrl, in every branch of the task. -/
theorem embeddingExternalBinaries_urlFetched (platform arch extension targetTriple
    version tmpToken : String) (oracle : Int → AttemptOutcome)
    (entries : Option (List (String × String))) (st : InstallState) :
    (embeddingExternalBinaries platform arch extension targetTriple version tmpToken
        oracle entries st).urlFetched = mkDownloadUrl version platform arch := by
  simp only [embeddingExternalBinaries]
  split
  · rfl
  · split
    · rfl
    · split
      · rfl
      · rfl

/-- Counterexample for C2 as stated: a failure at the fetch step (every
attempt rejected with HTTP 404) leaves the task's temporary workspace
directory in place, while the claim says a fetch-step failure still
results in the workspace being removed. -/
theorem workspace_kept_on_fetch_failure :
    (embeddingExternalBinaries "linux" "amd64" "" "x86_64-unknown-linux-gnu" "v1.12.6"
        "t0" alwaysFailOracle none ⟨emptyFS, emptyDirs⟩).result =
      .error (.fetchFailed ⟨mkDownloadUrl "v1.12.6" "linux" "amd64", 3,
        some (.httpStatus 404)⟩) ∧
    (embeddingExternalBinaries "linux" "amd64" "" "x86_64-unknown-linux-gnu" "v1.12.6"
        "t0" alwaysFailOracle none ⟨emptyFS, emptyDirs⟩).state.dirs
      (tmpDirOf "linux" "amd64" "t0") = true := by
  constructor
  · rfl
  · rfl

/-- C2 (amended): the temporary workspace exists after the task exactly
when the task failed. Removal is the last step of the success path
only; any thrown error, already at the fetch step or the extraction
step, skips it, so the spec's exception clause in fact covers every
failing step, not only errors past extraction. -/
theorem workspace_removed_iff_success (platform arch extension targetTriple version
    tmpToken : String) (oracle : Int → AttemptOutcome)
    (entries : Option (List (String × String))) (st : InstallState) :
    (embeddingExternalBinaries platform arch extension targetTriple version tmpToken
        oracle entries st).state.dirs (tmpDirOf platform arch tmpToken) =
      !(embeddingExternalBinaries platform arch extension targetTriple version tmpToken
        oracle entries st).succeeded := by
  simp only [embeddingExternalBinaries]
  split
  · simp [Dirs.add, InstallReturn.succeeded]
  · split
    · simp [Dirs.add, InstallReturn.succeeded]
    · split
      · simp [Dirs.add, InstallReturn.succeeded]
      · simp [Dirs.add, Dirs.remove, InstallReturn.succeeded]

/-- Counterexample for C8 as stated: at version v1.12.5 the URL the
installer fetches keeps the leading marker character in the release-tag
path segment, so not every occurrence of the version embedded in the
URL is stripped, and the URL differs from the all-occurrences-stripped
reading of the spec sentence. -/
theorem downloadUrl_version_marker_kept :
    (embeddingExternalBinaries "linux" "amd64" "" "x86_64-unknown-linux-gnu" "v1.12.5"
        "t1" alwaysFailOracle none ⟨emptyFS, emptyDirs⟩).urlFetched =
      "https://github.com/caocaocc/sing-box/releases/download/v1.12.5/sing-box-1.12.5-linux-amd64.tar.gz" ∧
    mkDownloadUrlSpecRead "v1.12.5" "linux" "amd64" =
      "https://github.com/caocaocc/sing-box/releases/download/1.12.5/sing-box-1.12.5-linux-amd64.tar.gz" ∧
    (embeddingExternalBinaries "linux" "amd64" "" "x86_64-unknown-linux-gnu" "v1.12.5"
        "t1" alwaysFailOracle none ⟨emptyFS, emptyDirs⟩).urlFetched ≠
      mkDownloadUrlSpecRead "v1.12.5" "linux" "amd64" :=
  ⟨rfl, rfl, by decide⟩

/-- C8 (amended): the installer computes the download URL by templating
the fixed release base with the configured version and the target's
platform and architecture, where the release-tag path segment keeps the
full version string (leading marker included) and only the occurrence
of the version inside the archive file name has its leading marker
character stripped. -/
theorem downloadUrl_template (platform arch extension targetTriple version
    tmpToken : String) (oracle : Int → AttemptOutcome)
    (entries : Option (List (String × String))) (st : InstallState) :
    (embeddingExternalBinaries platform arch extension targetTriple version tmpToken
        oracle entries st).urlFetched =
      GITHUB_RELEASE_URL ++ version ++ "/" ++ BINARY_NAME ++ "-" ++ version.drop 1 ++
        "-" ++ platform ++ "-" ++ arch ++ "." ++ fileExtensionOf platform :=
  embeddingExternalBinaries_urlFetched platform arch extension targetTriple version
    tmpToken oracle entries st

/-- C6: when the configured version is in the static skip-list the run
exits non-zero, its event trace contains no task creation and no
network request, the skip check appears exactly once in the trace, and
it is the very first event, hence before any task could be created. -/
theorem orchestrate_skiplist_aborts_before_tasks (version : String)
    (taskSucceeds : String → Bool) (hv : version ∈ SkipVersionList) :
    (orchestrate version taskSucceeds).2 ≠ 0 ∧
    (∀ e ∈ (orchestrate version taskSucceeds).1,
      (∀ n, e ≠ OEvent.taskCreated n) ∧ (∀ u, e ≠ OEvent.networkRequest u)) ∧
    ((orchestrate version taskSucceeds).1.countP
      (fun e => match e with | OEvent.skipCheck _ => true | _ => false)) = 1 ∧
    (orchestrate version taskSucceeds).1.head? = some (OEvent.skipCheck true) := by
  unfold orchestrate
  rw [if_pos hv]
  refine ⟨by decide, ?_, rfl, rfl⟩
  intro e he
  rcases List.mem_cons.mp he with h' | h'
  · subst h'
    exact ⟨fun n => by simp, fun u => by simp⟩
  · rcases List.mem_cons.mp h' with h'' | h''
    · subst h''
      exact ⟨fun n => by simp, fun u => by simp⟩
    · cases h''

/-- Witness for C6: the skip-listed version v1.12.5 aborts the run with
a non-zero status, the first trace event is the skip check, it occurs
once, and in particular it is not a task creation. -/
theorem orchestrate_skiplist_aborts_before_tasks_witness :
    (orchestrate "v1.12.5" (fun _ => true)).2 ≠ 0 ∧
    OEvent.skipCheck true ≠ OEvent.taskCreated "sing-box-darwin-arm64" ∧
    ((orchestrate "v1.12.5" (fun _ => true)).1.countP
      (fun e => match e with | OEvent.skipCheck _ => true | _ => false)) = 1 ∧
    (orchestrate "v1.12.5" (fun _ => true)).1.head? = some (OEvent.skipCheck true) :=
  ⟨(orchestrate_skiplist_aborts_before_tasks "v1.12.5" (fun _ => true) (by decide)).1,
   ((orchestrate_skiplist_aborts_before_tasks "v1.12.5" (fun _ => true) (by decide)).2.1
      (OEvent.skipCheck true) (by decide)).1 "sing-box-darwin-arm64",
   (orchestrate_skiplist_aborts_before_tasks "v1.12.5" (fun _ => true) (by decide)).2.2.1,
   (orchestrate_skiplist_aborts_before_tasks "v1.12.5" (fun _ => true) (by decide)).2.2.2⟩

/-- C1 (amended): with any failing task, Promise.all rejects and the
process exits with status 1 at the settlement time of the earliest
failing task: that time is attained by a failing task and bounds every
failing task's settlement from below, and the orchestrator does not
wait past it, so a sibling that settles later has not completed when
the process exits. No cancellation is issued: siblings run until the
exit itself. -/
theorem promiseAll_reports_at_earliest_failure (ts : List OTask)
    (hfail : ∃ t ∈ ts, t.ok = false) :
    (promiseAllExit ts).2 = 1 ∧
    (∃ t ∈ ts, t.ok = false ∧ t.settle = (promiseAllExit ts).1) ∧
    (∀ t ∈ ts, t.ok = false → (promiseAllExit ts).1 ≤ t.settle) := by
  cases hrec : earliestFailTime ts with
  | none =>
      obtain ⟨t, ht, hf⟩ := hfail
      have hok := earliestFailTime_none ts hrec t ht
      rw [hok] at hf
      cases hf
  | some m =>
      have hspec := earliestFailTime_spec ts m hrec
      unfold promiseAllExit
      rw [hrec]
      exact ⟨rfl, hspec.1, hspec.2⟩

/-- Witness for C1 (amended): in the failure scenario the process exits
with status 1 no later than the archive task's settlement. -/
theorem promiseAll_reports_at_earliest_failure_witness :
    (promiseAllExit scenarioTasks).2 = 1 ∧
    (promiseAllExit scenarioTasks).1 ≤ (taskRunOf scenarioBinaryRun 0).settle :=
  ⟨(promiseAll_reports_at_earliest_failure scenarioTasks (by decide)).1,
   (promiseAll_reports_at_earliest_failure scenarioTasks (by decide)).2.2
      (taskRunOf scenarioBinaryRun 0) (by decide) (by decide)⟩

/-- Counterexample for C1 as stated: in the spec's failure scenario —
one binary target whose archive fetch always fails (settling after the
1 s + 2 s backoffs) and one asset whose 10 s fetch succeeds — the
process exits non-zero at 3000 ms, before the asset task settles, so
the orchestrator did not wait for every launched task and the asset's
file does not exist on disk when the process exits. -/
theorem promiseAll_firstFailure_aborts_report :
    (promiseAllExit scenarioTasks).2 = 1 ∧
    resultOk scenarioAssetRun = true ∧
    ¬ (settleTimeOf scenarioAssetRun 10000 ≤ (promiseAllExit scenarioTasks).1) ∧
    scenarioAssetFileAtExit = none := by
  decide

end OneBox

